import Mathlib

/-!
Verification of the media storage gateway of a property-management backend
(`src/common/services/upload.service.ts`).

The service persists binary assets (profile images, property images, Instagram
media) either on the local filesystem (under `{cwd}/uploads/...`) or in a
remote blob store, selected by a deployment flag.  This file gives a shallow
embedding of the five public operations (`saveProfileImage`,
`savePropertyImage`, `saveInstagramMedia`, `deletePropertyImage`,
`deleteProfileImage`, `deleteInstagramMedia`) plus the constructor's directory
setup, and proves or refutes the specified properties.

Modelling conventions:
* JS strings are `List Char` (`JStr`); template-literal concatenation is `++`.
* The filesystem is a set of file paths plus a set of directory paths;
  `existsSync`/`unlinkSync`/`mkdirSync` act on it.  `path.join` is modelled
  as interposing a single `/` (`jn`), faithful to Node for the slash-clean
  arguments the service produces.
* The remote blob SDK (`put`/`del` of `@vercel/blob`, not part of this
  repository) is modelled from the spec: `put` stores the key with its access
  mode and content type and returns `host ++ "/" ++ key` as the blob URL;
  `del` accepts a bare key or a blob URL and reports an error when the key is
  absent.  The delete operations are additionally parametrised over an
  arbitrary `delOp` so that claims about transport failures quantify over
  every possible backend behaviour.
* A thrown JS exception is `Except.error`; the service's `try/catch` blocks
  become the corresponding `match`.  A failed operation discards its partial
  state changes in the model (no verified claim observes the state left
  behind by a failed save).
* `process.cwd()` is the fixed path `/app`; the fresh UUID of each save is an
  explicit argument; success of the backend write/upload is an explicit
  Boolean argument (`true` = the stream write / blob upload succeeds).
-/

abbrev JStr := List Char

/-- Boolean "is `p` a leading segment of `s`" on character lists, recursing on
the pattern only so that it reduces definitionally when the pattern is a
literal and the remainder of `s` is symbolic. -/
def isPre (p s : JStr) : Bool :=
  match p with
  | [] => true
  | a :: as =>
    match s with
    | [] => false
    | b :: bs => if a = b then isPre as bs else false

/-- JS `s.startsWith(p)`. -/
def startsWithJ (s p : JStr) : Bool := isPre p s

/-- First index at which `pat` occurs in the scanned list (running index `i`). -/
def findSubAux (pat : JStr) : JStr → Nat → Option Nat
  | [], i => if isPre pat [] then some i else none
  | c :: rest, i => if isPre pat (c :: rest) then some i else findSubAux pat rest (i + 1)

/-- First index at which `pat` occurs in `s`, if any. -/
def findSub (pat s : JStr) : Option Nat := findSubAux pat s 0

/-- JS `s.split(sep)` for a one-character separator. -/
def splitOnChar (sep : Char) (s : JStr) : List JStr :=
  s.foldr
    (fun c acc =>
      match acc with
      | [] => [[c]]
      | cur :: rest => if c = sep then [] :: cur :: rest else (c :: cur) :: rest)
    [[]]

/-- Last element of a list of strings, with a default. -/
def lastD (d : JStr) : List JStr → JStr
  | [] => d
  | [x] => x
  | _ :: y :: rest => lastD d (y :: rest)

/-- JS `s.split('/').pop() || ''`: the part after the last slash. -/
def lastSegment (s : JStr) : JStr := lastD [] (splitOnChar '/' s)

/-- Index of the last occurrence of `c`, accumulator form. -/
def lastIdxOfAux (c : Char) : JStr → Nat → Option Nat → Option Nat
  | [], _, acc => acc
  | d :: rest, i, acc => lastIdxOfAux c rest (i + 1) (if d = c then some i else acc)

/-- Index of the last occurrence of `c` in `s`. -/
def lastIdxOf (c : Char) (s : JStr) : Option Nat := lastIdxOfAux c s 0 none

def sSlash : JStr := "/".data
def sDotDot : JStr := "..".data

/-- Node `path.extname`: the suffix of the final path segment from its last
dot, empty when the segment has no dot, only a leading dot, or is `..`.
(Modelled for the slash-clean multipart filenames the service receives;
Node's treatment of trailing slashes is not reproduced.) -/
def extname (p : JStr) : JStr :=
  let base := lastSegment p
  if base = sDotDot then []
  else
    match lastIdxOf '.' base with
    | none => []
    | some 0 => []
    | some i => base.drop i

/-- Characters of a URL path up to a query or fragment delimiter. -/
def takeUntilStop : JStr → JStr
  | [] => []
  | c :: rest => if c = '?' then [] else if c = '#' then [] else c :: takeUntilStop rest

def sSchemeSep : JStr := "://".data

/-- JS `new URL(u).pathname`, for inputs of shape `scheme://host[/path...]`;
`none` models the constructor throwing on an unparsable input. -/
def urlPathname (u : JStr) : Option JStr :=
  match findSub sSchemeSep u with
  | none => none
  | some i =>
    let rest := u.drop (i + 3)
    match findSub sSlash rest with
    | none => some sSlash
    | some j => some (takeUntilStop (rest.drop j))

def sDotComSlash : JStr := ".com/".data

/-- JS `s.match(/\.com\/(.+)$/)`: the captured group, i.e. everything after
the first `.com/` whose remainder is non-empty. -/
def matchAfterCom (s : JStr) : Option JStr :=
  match findSub sDotComSlash s with
  | none => none
  | some i =>
    let t := s.drop (i + 5)
    if t.isEmpty then none else some t

/-- Node `path.join` restricted to two slash-clean components. -/
def jn (a b : JStr) : JStr := a ++ '/' :: b

def processCwd : JStr := "/app".data
def sHttp : JStr := "http".data
def sUploads : JStr := "uploads".data
def sUploadsSlash : JStr := "uploads/".data
def sProfImg : JStr := "profile-images".data
def sProfImgSlash : JStr := "profile-images/".data
def sPropImg : JStr := "property-images".data
def sPropImgSlash : JStr := "property-images/".data
def sInsta : JStr := "instagram-media".data
def sInstaSlash : JStr := "instagram-media/".data
def sReel : JStr := "reel".data
def sVideo : JStr := "video".data
def sMp4 : JStr := ".mp4".data
def sJpg : JStr := ".jpg".data
def sPublic : JStr := "public".data

/-- Membership of a string in a list of strings, by decidable equality. -/
def memJ (x : JStr) : List JStr → Bool
  | [] => false
  | y :: rest => if x = y then true else memJ x rest

/-- Remove the (first) occurrence of a string from a list of strings. -/
def removeJ (x : JStr) : List JStr → List JStr
  | [] => []
  | y :: rest => if x = y then rest else y :: removeJ x rest

/-- Local filesystem state: the set of existing files and directories. -/
structure LocalFS where
  files : List JStr
  dirs : List JStr
deriving DecidableEq

/-- `fs.existsSync` on a file path (candidate delete paths are file paths). -/
def existsFile (p : JStr) (fs : LocalFS) : Bool := memJ p fs.files

/-- `fs.unlinkSync`. -/
def unlink (p : JStr) (fs : LocalFS) : LocalFS := { fs with files := removeJ p fs.files }

/-- `fs.existsSync` on a directory path. -/
def existsDir (d : JStr) (fs : LocalFS) : Bool := memJ d fs.dirs

/-- `fs.mkdirSync(d, { recursive: true })`. -/
def mkdirp (d : JStr) (fs : LocalFS) : LocalFS := { fs with dirs := d :: fs.dirs }

/-- Completed streamed write of a buffer to `p` (a set-insert of the path). -/
def writeFileAt (p : JStr) (fs : LocalFS) : LocalFS :=
  { fs with files := if memJ p fs.files then fs.files else p :: fs.files }

/-- One stored blob object of the remote backend. -/
structure BlobObj where
  key : JStr
  contentType : JStr
  access : JStr
deriving DecidableEq

/-- Remote blob store state. -/
structure BlobState where
  objects : List BlobObj
deriving DecidableEq

def blobHost : JStr := "https://viahfpn0v0vwvach.public.blob.vercel-storage.com".data

def keyMem (k : JStr) : List BlobObj → Bool
  | [] => false
  | o :: rest => if o.key = k then true else keyMem k rest

def keyRemove (k : JStr) : List BlobObj → List BlobObj
  | [] => []
  | o :: rest => if o.key = k then rest else o :: keyRemove k rest

/-- Modelled from the spec: `put` of the `@vercel/blob` SDK (not part of this
repository).  The byte buffer is uploaded under the given key with the given
access mode and content type, and the call returns the backend-assigned
absolute URL `host ++ "/" ++ key`. -/
def blobPut (st : BlobState) (k ct access : JStr) : JStr × BlobState :=
  (blobHost ++ (sSlash ++ k), ⟨⟨k, ct, access⟩ :: st.objects⟩)

/-- Modelled from the spec: `del` of the `@vercel/blob` SDK (not part of this
repository).  It accepts a bare key or a full blob URL of this store, and
reports an error (`none`) when the resolved key is absent. -/
def blobDel (r : JStr) (st : BlobState) : Option BlobState :=
  let k := if startsWithJ r (blobHost ++ sSlash) then r.drop (blobHost.length + 1) else r
  if keyMem k st.objects then some ⟨keyRemove k st.objects⟩ else none

/-- Combined state of both backends. -/
structure Store where
  fs : LocalFS
  blob : BlobState
deriving DecidableEq

/-- The `Express.Multer.File` fields the service reads. -/
structure MulterFile where
  buffer : List Nat
  mimetype : JStr
  originalname : Option JStr
deriving DecidableEq

/-- Thrown JS errors, as the service can observe them. -/
inductive JsErr where
  | noFileProvided
  | typeError
  | uploadFailed
  | writeFailed
deriving DecidableEq

/-- `uploadDir` field of the service: `join(process.cwd(), 'uploads')`. -/
def uploadDir : JStr := jn processCwd sUploads

/-- `propertyImagesDir` field: `join(uploadDir, 'property-images')`. -/
def propertyImagesDir : JStr := jn uploadDir sPropImg

/-- `profileImagesDir` field: `join(uploadDir, 'profile-images')`. -/
def profileImagesDir : JStr := jn uploadDir sProfImg

/-- `ensureDirectoryExists` (upload.service.ts:47-59): create-if-absent. -/
def ensureDirectoryExists (d : JStr) (fs : LocalFS) : LocalFS :=
  if existsDir d fs then fs else mkdirp d fs

/-- The constructor's directory setup (upload.service.ts:18-40): on Vercel no
directory is touched; locally the root and the two image category directories
are ensured, in source order. -/
def constructorInit (isVercel : Bool) (fs : LocalFS) : LocalFS :=
  if isVercel then fs
  else
    ensureDirectoryExists profileImagesDir
      (ensureDirectoryExists propertyImagesDir (ensureDirectoryExists uploadDir fs))

/-- `saveProfileImage` (upload.service.ts:111-208).  `isVercel` is the
deployment flag, `uuid` the fresh identifier generated by `uuidv4()`, and
`backendOk` whether the blob upload / stream write succeeds. -/
def saveProfileImage (isVercel : Bool) (file : Option MulterFile) (userId : JStr)
    (uuid : JStr) (backendOk : Bool) (st : Store) : Except JsErr (JStr × Store) :=
  match file with
  | none => .error .noFileProvided
  | some f =>
    if isVercel then
      match f.originalname with
      | none => .error .typeError
      | some orig =>
        let fn := uuid ++ extname orig
        let blobPath := sProfImgSlash ++ userId ++ sSlash ++ fn
        if backendOk then
          let r := blobPut st.blob blobPath f.mimetype sPublic
          .ok (r.1, { st with blob := r.2 })
        else .error .uploadFailed
    else
      let userDir := jn (jn (jn processCwd sUploads) sProfImg) userId
      let fs1 := if existsDir userDir st.fs then st.fs else mkdirp userDir st.fs
      match f.originalname with
      | none => .error .typeError
      | some orig =>
        let fn := uuid ++ extname orig
        let filePath := jn userDir fn
        if backendOk then
          .ok (sProfImgSlash ++ userId ++ sSlash ++ fn, { st with fs := writeFileAt filePath fs1 })
        else .error .writeFailed

/-- `savePropertyImage` (upload.service.ts:216-313).  Locally the extension
falls back to `.mp4`/`.jpg` only when `originalname` is absent or empty (JS
truthiness); remotely `path.extname` is applied unconditionally and throws on
an absent `originalname`. -/
def savePropertyImage (isVercel : Bool) (file : Option MulterFile) (propertyId : JStr)
    (mediaType : JStr) (uuid : JStr) (backendOk : Bool) (st : Store) :
    Except JsErr (JStr × Store) :=
  match file with
  | none => .error .noFileProvided
  | some f =>
    if isVercel then
      match f.originalname with
      | none => .error .typeError
      | some orig =>
        let fn := uuid ++ extname orig
        let blobPath := sPropImgSlash ++ propertyId ++ sSlash ++ fn
        if backendOk then
          let r := blobPut st.blob blobPath f.mimetype sPublic
          .ok (r.1, { st with blob := r.2 })
        else .error .uploadFailed
    else
      let propDir := jn (jn (jn processCwd sUploads) sPropImg) propertyId
      let fs1 := if existsDir propDir st.fs then st.fs else mkdirp propDir st.fs
      let ext :=
        match f.originalname with
        | some o =>
          if o.isEmpty then (if mediaType = sReel then sMp4 else sJpg) else extname o
        | none => if mediaType = sReel then sMp4 else sJpg
      let fn := uuid ++ ext
      let filePath := jn propDir fn
      if backendOk then
        .ok (sPropImgSlash ++ propertyId ++ sSlash ++ fn, { st with fs := writeFileAt filePath fs1 })
      else .error .writeFailed

/-- `saveInstagramMedia` (upload.service.ts:687-807).  Locally the extension
defaults to `.mp4` (`fileType === 'video'`) or `.jpg` when `originalname` is
falsy or `path.extname` yields the empty string; remotely `path.extname` is
applied unconditionally with no default. -/
def saveInstagramMedia (isVercel : Bool) (file : Option MulterFile) (userId : JStr)
    (mediaType : JStr) (fileType : JStr) (uuid : JStr) (backendOk : Bool) (st : Store) :
    Except JsErr (JStr × Store) :=
  match file with
  | none => .error .noFileProvided
  | some f =>
    if isVercel then
      match f.originalname with
      | none => .error .typeError
      | some orig =>
        let fn := uuid ++ extname orig
        let blobPath := sInstaSlash ++ mediaType ++ sSlash ++ userId ++ sSlash ++ fn
        if backendOk then
          let r := blobPut st.blob blobPath f.mimetype sPublic
          .ok (r.1, { st with blob := r.2 })
        else .error .uploadFailed
    else
      let instaDir := jn (jn (jn (jn processCwd sUploads) sInsta) mediaType) userId
      let fs1 := if existsDir instaDir st.fs then st.fs else mkdirp instaDir st.fs
      let dflt := if fileType = sVideo then sMp4 else sJpg
      let ext :=
        match f.originalname with
        | some o =>
          if o.isEmpty then dflt else (if (extname o).isEmpty then dflt else extname o)
        | none => dflt
      let fn := uuid ++ ext
      let filePath := jn instaDir fn
      if backendOk then
        .ok (sInstaSlash ++ mediaType ++ sSlash ++ userId ++ sSlash ++ fn,
          { st with fs := writeFileAt filePath fs1 })
      else .error .writeFailed

/-- Normalization steps (2) and (3) of a local delete (upload.service.ts:424-438):
strip one leading slash, then prefix the storage root, inferring the category
segment from the first path segment when it is the operation's category, else
assuming that category. -/
def normalizeSteps (category r : JStr) : JStr :=
  let p1 := if startsWithJ r sSlash then r.drop 1 else r
  if startsWithJ p1 sUploadsSlash then p1
  else if startsWithJ p1 (category ++ sSlash) then sUploadsSlash ++ p1
  else sUploadsSlash ++ category ++ sSlash ++ p1

/-- The ordered walk over the alternative candidate paths of a local delete
(the `for` loop of upload.service.ts:466-482). -/
def tryAlts (alts : List JStr) (fs : LocalFS) : Bool × LocalFS :=
  match alts with
  | [] => (false, fs)
  | a :: rest => if existsFile a fs then (true, unlink a fs) else tryAlts rest fs

/-- Body of the `try` block shared verbatim by `deletePropertyImage`
(upload.service.ts:320-489), `deleteProfileImage` (502-671) and
`deleteInstagramMedia` (814-981), which differ only in the category constant.
`delOp` is the external blob `del` call; a thrown error is `Except.error`. -/
def deleteAssetCore (category : JStr) (isVercel : Bool)
    (delOp : JStr → BlobState → Option BlobState)
    (r : JStr) (st : Store) : Except JsErr (Bool × Store) :=
  if isVercel then
    if startsWithJ r sHttp then
      match matchAfterCom r with
      | some blobPath =>
        match delOp blobPath st.blob with
        | some b => .ok (true, { st with blob := b })
        | none =>
          match delOp r st.blob with
          | some b => .ok (true, { st with blob := b })
          | none => .ok (false, st)
      | none =>
        match delOp r st.blob with
        | some b => .ok (true, { st with blob := b })
        | none => .ok (false, st)
    else
      let blobPath := if startsWithJ r sSlash then r.drop 1 else r
      match delOp blobPath st.blob with
      | some b => .ok (true, { st with blob := b })
      | none => .ok (false, st)
  else
    match (if startsWithJ r sHttp then urlPathname r else some r) with
    | none => .error .typeError
    | some p0 =>
      let p2 := normalizeSteps category p0
      let fullPath := jn processCwd p2
      if existsFile fullPath st.fs then
        .ok (true, { st with fs := unlink fullPath st.fs })
      else
        let res := tryAlts [jn (jn processCwd sUploads) p2, jn processCwd p2,
          jn (jn (jn processCwd sUploads) category) (lastSegment p2)] st.fs
        .ok (res.1, { st with fs := res.2 })

/-- A delete operation in full: the falsy-input early return, then the `try`
body, with the surrounding `catch` folding any thrown error into `false`.
`none` models a `null`/`undefined` reference. -/
def deleteAsset (category : JStr) (isVercel : Bool)
    (delOp : JStr → BlobState → Option BlobState)
    (imageUrl : Option JStr) (st : Store) : Bool × Store :=
  match imageUrl with
  | none => (false, st)
  | some r =>
    if r.isEmpty then (false, st)
    else
      match deleteAssetCore category isVercel delOp r st with
      | .ok out => out
      | .error _ => (false, st)

/-- `deletePropertyImage` (upload.service.ts:320-495). -/
def deletePropertyImage (isVercel : Bool) (delOp : JStr → BlobState → Option BlobState)
    (imageUrl : Option JStr) (st : Store) : Bool × Store :=
  deleteAsset sPropImg isVercel delOp imageUrl st

/-- `deleteProfileImage` (upload.service.ts:502-677). -/
def deleteProfileImage (isVercel : Bool) (delOp : JStr → BlobState → Option BlobState)
    (imageUrl : Option JStr) (st : Store) : Bool × Store :=
  deleteAsset sProfImg isVercel delOp imageUrl st

/-- `deleteInstagramMedia` (upload.service.ts:814-987). -/
def deleteInstagramMedia (isVercel : Bool) (delOp : JStr → BlobState → Option BlobState)
    (imageUrl : Option JStr) (st : Store) : Bool × Store :=
  deleteAsset sInsta isVercel delOp imageUrl st

/-- The ordered candidate list a local delete actually probes, given the
normalized path `p2`: the normalized path, the root-qualified normalized
path, the normalized path again, and root + category + basename of the
normalized path. -/
def candidatePaths (category p2 : JStr) : List JStr :=
  [jn processCwd p2, jn (jn processCwd sUploads) p2, jn processCwd p2,
    jn (jn (jn processCwd sUploads) category) (lastSegment p2)]

/-- Delete the first existing candidate, `false` when none exists. -/
def scanDelete (cands : List JStr) (st : Store) : Bool × Store :=
  match cands.find? (fun c => existsFile c st.fs) with
  | some c => (true, { st with fs := unlink c st.fs })
  | none => (false, st)

/-- The local delete fallback as the specification words it: after the
normalized path fails, the alternative candidates are computed from the
ORIGINAL input — root-qualified original input, literal original input, and
root + category + basename of the original input.  Stated here only to be
compared against the implementation. -/
def deleteLocalClaimed (category r : JStr) (st : Store) : Bool × Store :=
  scanDelete [jn processCwd (normalizeSteps category r),
    jn (jn processCwd sUploads) r,
    jn processCwd r,
    jn (jn (jn processCwd sUploads) category) (lastSegment r)] st

/-- Does `s` end with `p`? -/
def endsWith (s p : JStr) : Bool := isPre p.reverse s.reverse

/-- The pristine store: empty local filesystem, empty blob store. -/
def st0 : Store := ⟨⟨[], []⟩, ⟨[]⟩⟩

/-- Starting from the pristine store, run a save and then delete the returned
reference twice; yields the two delete results (`none` when the save fails). -/
def roundTrip (saveOp : Store → Except JsErr (JStr × Store))
    (delOp2 : Option JStr → Store → Bool × Store) : Option (Bool × Bool) :=
  match saveOp st0 with
  | .error _ => none
  | .ok (ref, st1) =>
    let r1 := delOp2 (some ref) st1
    let r2 := delOp2 (some ref) r1.2
    some (r1.1, r2.1)

def mimeJpeg : JStr := "image/jpeg".data
def mimeMp4v : JStr := "video/mp4".data
def nameAJpg : JStr := "a.jpg".data
def nameClip : JStr := "clip".data

/-- A well-formed uploaded JPEG file. -/
def fileA : MulterFile := ⟨[7, 7], mimeJpeg, some nameAJpg⟩

/-- A present file object whose buffer is empty. -/
def fileEmptyBuf : MulterFile := ⟨[], mimeJpeg, some nameAJpg⟩

/-- A video upload whose filename has no extension. -/
def fileClip : MulterFile := ⟨[1], mimeMp4v, some nameClip⟩

/-- A file object with no original filename. -/
def fileNoName : MulterFile := ⟨[1], mimeJpeg, none⟩

def uA : JStr := "u1".data
def pidA : JStr := "p1".data
def uuidA : JStr := "id1".data
def sPost : JStr := "post".data
def sImage : JStr := "image".data

/-- C3 counterexample input: a category-relative reference. -/
def r3 : JStr := "property-images/u/x.jpg".data

/-- C3 counterexample state: the file exists at the literal original input
path `cwd/property-images/u/x.jpg` (a legacy reference shape). -/
def st3 : Store := ⟨⟨[jn processCwd r3], []⟩, ⟨[]⟩⟩

/-- C4/C10 witness key and URL. -/
def k4 : JStr := "property-images/u1/a.jpg".data

def u4 : JStr := blobHost ++ (sSlash ++ k4)

/-- A store whose blob backend holds exactly the object `k4`. -/
def st4 : Store := ⟨⟨[], []⟩, ⟨[⟨k4, mimeJpeg, sPublic⟩]⟩⟩

/-- An input on which `new URL` throws: it starts with `http` but has no
scheme separator. -/
def badUrl : JStr := "httpx".data

/-- C10 witness input: a bare key with one leading slash. -/
def r10 : JStr := "/property-images/u1/a.jpg".data

/-- C9 witness filesystem: all three directories already exist. -/
def fsW : LocalFS := ⟨[], [uploadDir, propertyImagesDir, profileImagesDir]⟩

theorem isPre_self_append (l t : JStr) : isPre l (l ++ t) = true := by
  induction l with
  | nil => rfl
  | cons a as ih => simp [isPre, ih]

theorem endsWith_append (x p : JStr) : endsWith (x ++ p) p = true := by
  simp [endsWith, List.reverse_append, isPre_self_append]

theorem startsWith_http_nonempty (u : JStr) (h : startsWithJ u sHttp = true) :
    u.isEmpty = false := by
  cases u with
  | nil => exact absurd h (by decide)
  | cons c rest => rfl

theorem prof_not_http (t : JStr) : startsWithJ (sProfImgSlash ++ t) sHttp = false := rfl

theorem prof_not_slash (t : JStr) : startsWithJ (sProfImgSlash ++ t) sSlash = false := rfl

theorem prof_not_uploads (t : JStr) : startsWithJ (sProfImgSlash ++ t) sUploadsSlash = false := rfl

theorem prof_cat (t : JStr) : startsWithJ (sProfImgSlash ++ t) (sProfImg ++ sSlash) = true := rfl

theorem prof_nonempty (t : JStr) : (sProfImgSlash ++ t).isEmpty = false := rfl

theorem prof_not_bhost (t : JStr) :
    startsWithJ (sProfImgSlash ++ t) (blobHost ++ sSlash) = false := rfl

theorem prop_not_http (t : JStr) : startsWithJ (sPropImgSlash ++ t) sHttp = false := rfl

theorem prop_not_slash (t : JStr) : startsWithJ (sPropImgSlash ++ t) sSlash = false := rfl

theorem prop_not_uploads (t : JStr) : startsWithJ (sPropImgSlash ++ t) sUploadsSlash = false := rfl

theorem prop_cat (t : JStr) : startsWithJ (sPropImgSlash ++ t) (sPropImg ++ sSlash) = true := rfl

theorem prop_nonempty (t : JStr) : (sPropImgSlash ++ t).isEmpty = false := rfl

theorem prop_not_bhost (t : JStr) :
    startsWithJ (sPropImgSlash ++ t) (blobHost ++ sSlash) = false := rfl

theorem insta_not_http (t : JStr) : startsWithJ (sInstaSlash ++ t) sHttp = false := rfl

theorem insta_not_slash (t : JStr) : startsWithJ (sInstaSlash ++ t) sSlash = false := rfl

theorem insta_not_uploads (t : JStr) : startsWithJ (sInstaSlash ++ t) sUploadsSlash = false := rfl

theorem insta_cat (t : JStr) : startsWithJ (sInstaSlash ++ t) (sInsta ++ sSlash) = true := rfl

theorem insta_nonempty (t : JStr) : (sInstaSlash ++ t).isEmpty = false := rfl

theorem insta_not_bhost (t : JStr) :
    startsWithJ (sInstaSlash ++ t) (blobHost ++ sSlash) = false := rfl

theorem bhost_http (x : JStr) : startsWithJ (blobHost ++ x) sHttp = true := rfl

theorem bhost_nonempty (x : JStr) : (blobHost ++ x).isEmpty = false := rfl

theorem matchAfterCom_bhost (k : JStr) :
    matchAfterCom (blobHost ++ (sSlash ++ k)) = if k.isEmpty then none else some k := rfl

theorem bhost_self (k : JStr) :
    startsWithJ (blobHost ++ (sSlash ++ k)) (blobHost ++ sSlash) = true := rfl

theorem bhost_drop (k : JStr) : (blobHost ++ (sSlash ++ k)).drop (blobHost.length + 1) = k := rfl

theorem sSlash_cons (r : JStr) : sSlash ++ r = '/' :: r := rfl

theorem profile_path_eq (uid fn : JStr) :
    jn processCwd (sUploadsSlash ++ (sProfImgSlash ++ (uid ++ (sSlash ++ fn)))) =
      jn (jn (jn (jn processCwd sUploads) sProfImg) uid) fn := by
  have e1 : sUploadsSlash = sUploads ++ sSlash := rfl
  have e2 : sProfImgSlash = sProfImg ++ sSlash := rfl
  simp [jn, e1, e2, sSlash_cons, List.append_assoc]

theorem property_path_eq (pid fn : JStr) :
    jn processCwd (sUploadsSlash ++ (sPropImgSlash ++ (pid ++ (sSlash ++ fn)))) =
      jn (jn (jn (jn processCwd sUploads) sPropImg) pid) fn := by
  have e1 : sUploadsSlash = sUploads ++ sSlash := rfl
  have e2 : sPropImgSlash = sPropImg ++ sSlash := rfl
  simp [jn, e1, e2, sSlash_cons, List.append_assoc]

theorem insta_path_eq (mt uid fn : JStr) :
    jn processCwd (sUploadsSlash ++ (sInstaSlash ++ (mt ++ (sSlash ++ (uid ++ (sSlash ++ fn)))))) =
      jn (jn (jn (jn (jn processCwd sUploads) sInsta) mt) uid) fn := by
  have e1 : sUploadsSlash = sUploads ++ sSlash := rfl
  have e2 : sInstaSlash = sInsta ++ sSlash := rfl
  simp [jn, e1, e2, sSlash_cons, List.append_assoc]

theorem tryAlts_eq_find (alts : List JStr) (fs : LocalFS) :
    tryAlts alts fs =
      (match alts.find? (fun a => existsFile a fs) with
       | some c => (true, unlink c fs)
       | none => (false, fs)) := by
  induction alts with
  | nil => rfl
  | cons a rest ih =>
    cases h : existsFile a fs with
    | true => simp [tryAlts, List.find?, h]
    | false => simp [tryAlts, List.find?, h, ih]

theorem deleteAsset_local_scan (category : JStr) (delOp : JStr → BlobState → Option BlobState)
    (r : JStr) (st : Store) (h0 : r.isEmpty = false) (hh : startsWithJ r sHttp = false) :
    deleteAsset category false delOp (some r) st =
      scanDelete (candidatePaths category (normalizeSteps category r)) st := by
  have hcore : deleteAssetCore category false delOp r st =
      .ok (scanDelete (candidatePaths category (normalizeSteps category r)) st) := by
    simp only [deleteAssetCore, hh, Bool.false_eq_true, if_false]
    generalize normalizeSteps category r = q
    cases h1 : existsFile (jn processCwd q) st.fs with
    | true => simp [candidatePaths, scanDelete, List.find?, h1]
    | false =>
      simp only [h1, Bool.false_eq_true, if_false, tryAlts_eq_find,
        candidatePaths, scanDelete, List.find?, h1]
      cases h2 : existsFile (jn (jn processCwd sUploads) q) st.fs with
      | true => simp [h2]
      | false =>
        cases h3 : existsFile (jn (jn (jn processCwd sUploads) category) (lastSegment q)) st.fs
          <;> simp [h2, h3]
  simp [deleteAsset, h0, hcore]

theorem deleteAsset_local_url (category : JStr) (delOp : JStr → BlobState → Option BlobState)
    (u p : JStr) (st : Store) (hu : startsWithJ u sHttp = true) (hp : urlPathname u = some p) :
    deleteAsset category false delOp (some u) st =
      scanDelete (candidatePaths category (normalizeSteps category p)) st := by
  have h0 : u.isEmpty = false := startsWith_http_nonempty u hu
  have hcore : deleteAssetCore category false delOp u st =
      .ok (scanDelete (candidatePaths category (normalizeSteps category p)) st) := by
    simp only [deleteAssetCore, hu, if_true, hp, Bool.false_eq_true, if_false]
    generalize normalizeSteps category p = q
    cases h1 : existsFile (jn processCwd q) st.fs with
    | true => simp [candidatePaths, scanDelete, List.find?, h1]
    | false =>
      simp only [h1, Bool.false_eq_true, if_false, tryAlts_eq_find,
        candidatePaths, scanDelete, List.find?, h1]
      cases h2 : existsFile (jn (jn processCwd sUploads) q) st.fs with
      | true => simp [h2]
      | false =>
        cases h3 : existsFile (jn (jn (jn processCwd sUploads) category) (lastSegment q)) st.fs
          <;> simp [h2, h3]
  simp [deleteAsset, h0, hcore]

theorem deleteAsset_local_urlfail (category : JStr) (delOp : JStr → BlobState → Option BlobState)
    (u : JStr) (st : Store) (hu : startsWithJ u sHttp = true) (hp : urlPathname u = none) :
    deleteAsset category false delOp (some u) st = (false, st) := by
  have h0 : u.isEmpty = false := startsWith_http_nonempty u hu
  have hcore : deleteAssetCore category false delOp u st = .error .typeError := by
    simp only [deleteAssetCore, hu, if_true, hp, Bool.false_eq_true, if_false]
  simp [deleteAsset, h0, hcore]

theorem deleteAsset_remote_url (category : JStr) (delOp : JStr → BlobState → Option BlobState)
    (u k : JStr) (st : Store) (hu : startsWithJ u sHttp = true) (hm : matchAfterCom u = some k) :
    deleteAsset category true delOp (some u) st =
      (match delOp k st.blob with
       | some b => (true, { st with blob := b })
       | none =>
         match delOp u st.blob with
         | some b => (true, { st with blob := b })
         | none => (false, st)) := by
  have h0 : u.isEmpty = false := startsWith_http_nonempty u hu
  have hcore : deleteAssetCore category true delOp u st =
      .ok (match delOp k st.blob with
        | some b => (true, { st with blob := b })
        | none =>
          match delOp u st.blob with
          | some b => (true, { st with blob := b })
          | none => (false, st)) := by
    simp only [deleteAssetCore, if_true, hu, hm]
    cases hk : delOp k st.blob with
    | some b => simp
    | none => cases hu2 : delOp u st.blob <;> simp
  simp [deleteAsset, h0, hcore]

theorem deleteAsset_remote_key (category : JStr) (delOp : JStr → BlobState → Option BlobState)
    (r : JStr) (st : Store) (h0 : r.isEmpty = false) (hh : startsWithJ r sHttp = false) :
    deleteAsset category true delOp (some r) st =
      (match delOp (if startsWithJ r sSlash then r.drop 1 else r) st.blob with
       | some b => (true, { st with blob := b })
       | none => (false, st)) := by
  have hcore : deleteAssetCore category true delOp r st =
      .ok (match delOp (if startsWithJ r sSlash then r.drop 1 else r) st.blob with
        | some b => (true, { st with blob := b })
        | none => (false, st)) := by
    simp only [deleteAssetCore, if_true, hh, Bool.false_eq_true, if_false]
    cases hq : delOp (if startsWithJ r sSlash then r.drop 1 else r) st.blob <;> simp
  simp [deleteAsset, h0, hcore]

theorem deleteAssetCore_remote_isOk (category : JStr)
    (delOp : JStr → BlobState → Option BlobState) (r : JStr) (st : Store) :
    (deleteAssetCore category true delOp r st).isOk = true := by
  simp only [deleteAssetCore, if_true]
  cases hh : startsWithJ r sHttp with
  | true =>
    simp only [hh, if_true]
    cases hm : matchAfterCom r with
    | some k =>
      cases hk : delOp k st.blob with
      | some b => simp [hk, Except.isOk, Except.toBool]
      | none => cases hr : delOp r st.blob <;> simp [hk, hr, Except.isOk, Except.toBool]
    | none => cases hr : delOp r st.blob <;> simp [hr, Except.isOk, Except.toBool]
  | false =>
    simp only [hh, Bool.false_eq_true, if_false]
    cases hq : delOp (if startsWithJ r sSlash then r.drop 1 else r) st.blob <;>
      simp [hq, Except.isOk, Except.toBool]

theorem deleteAsset_error_fold (category : JStr) (isV : Bool)
    (delOp : JStr → BlobState → Option BlobState) (r : JStr) (st : Store)
    (e : JsErr) (hc : deleteAssetCore category isV delOp r st = .error e) :
    deleteAsset category isV delOp (some r) st = (false, st) := by
  cases h0 : r.isEmpty with
  | true => simp [deleteAsset, h0]
  | false => simp [deleteAsset, h0, hc]

theorem roundtrip_profile_local (f : MulterFile) (orig uid uuid : JStr)
    (h : f.originalname = some orig) :
    roundTrip (saveProfileImage false (some f) uid uuid true)
      (deleteProfileImage false blobDel) = some (true, false) := by
  have hsave : saveProfileImage false (some f) uid uuid true st0 =
      .ok (sProfImgSlash ++ uid ++ sSlash ++ (uuid ++ extname orig),
        ⟨⟨[jn (jn (jn (jn processCwd sUploads) sProfImg) uid) (uuid ++ extname orig)],
          [jn (jn (jn processCwd sUploads) sProfImg) uid]⟩, ⟨[]⟩⟩) := by
    simp [saveProfileImage, h, st0, existsDir, memJ, mkdirp, writeFileAt]
  have hnorm : normalizeSteps sProfImg (sProfImgSlash ++ uid ++ sSlash ++ (uuid ++ extname orig))
      = sUploadsSlash ++ (sProfImgSlash ++ uid ++ sSlash ++ (uuid ++ extname orig)) := by
    simp [normalizeSteps, prof_not_slash, prof_not_uploads, prof_cat]
  have hdel1 := deleteAsset_local_scan sProfImg blobDel
      (sProfImgSlash ++ uid ++ sSlash ++ (uuid ++ extname orig))
      ⟨⟨[jn (jn (jn (jn processCwd sUploads) sProfImg) uid) (uuid ++ extname orig)],
        [jn (jn (jn processCwd sUploads) sProfImg) uid]⟩, ⟨[]⟩⟩
      (prof_nonempty _) (prof_not_http _)
  have hscan1 : scanDelete (candidatePaths sProfImg
        (sUploadsSlash ++ (sProfImgSlash ++ uid ++ sSlash ++ (uuid ++ extname orig))))
      ⟨⟨[jn (jn (jn (jn processCwd sUploads) sProfImg) uid) (uuid ++ extname orig)],
        [jn (jn (jn processCwd sUploads) sProfImg) uid]⟩, ⟨[]⟩⟩ =
      (true, ⟨⟨[], [jn (jn (jn processCwd sUploads) sProfImg) uid]⟩, ⟨[]⟩⟩) := by
    simp [scanDelete, candidatePaths, List.find?, existsFile, memJ, profile_path_eq,
      unlink, removeJ]
  have hdel2 := deleteAsset_local_scan sProfImg blobDel
      (sProfImgSlash ++ uid ++ sSlash ++ (uuid ++ extname orig))
      ⟨⟨[], [jn (jn (jn processCwd sUploads) sProfImg) uid]⟩, ⟨[]⟩⟩
      (prof_nonempty _) (prof_not_http _)
  have hscan2 : scanDelete (candidatePaths sProfImg
        (normalizeSteps sProfImg (sProfImgSlash ++ uid ++ sSlash ++ (uuid ++ extname orig))))
      ⟨⟨[], [jn (jn (jn processCwd sUploads) sProfImg) uid]⟩, ⟨[]⟩⟩ =
      (false, ⟨⟨[], [jn (jn (jn processCwd sUploads) sProfImg) uid]⟩, ⟨[]⟩⟩) := by
    simp [scanDelete, candidatePaths, List.find?, existsFile, memJ]
  simp only [roundTrip, hsave, deleteProfileImage]
  rw [hdel1, hnorm, hscan1]
  rw [hdel2, hscan2]

theorem double_delete_local (category rel : JStr) (ds : List JStr)
    (h0 : rel.isEmpty = false) (hh : startsWithJ rel sHttp = false)
    (hs : startsWithJ rel sSlash = false) (hup : startsWithJ rel sUploadsSlash = false)
    (hcat : startsWithJ rel (category ++ sSlash) = true) :
    deleteAsset category false blobDel (some rel)
      ⟨⟨[jn processCwd (sUploadsSlash ++ rel)], ds⟩, ⟨[]⟩⟩ =
      (true, ⟨⟨[], ds⟩, ⟨[]⟩⟩) ∧
    deleteAsset category false blobDel (some rel) ⟨⟨[], ds⟩, ⟨[]⟩⟩ =
      (false, ⟨⟨[], ds⟩, ⟨[]⟩⟩) := by
  have hnorm : normalizeSteps category rel = sUploadsSlash ++ rel := by
    simp [normalizeSteps, hs, hup, hcat]
  constructor
  · rw [deleteAsset_local_scan category blobDel rel _ h0 hh, hnorm]
    simp [scanDelete, candidatePaths, List.find?, existsFile, memJ, unlink, removeJ]
  · rw [deleteAsset_local_scan category blobDel rel _ h0 hh]
    simp [scanDelete, candidatePaths, List.find?, existsFile, memJ]

theorem double_delete_remote (category K ct acc : JStr) (fs : LocalFS)
    (hne : K.isEmpty = false) (hnb : startsWithJ K (blobHost ++ sSlash) = false) :
    deleteAsset category true blobDel (some (blobHost ++ (sSlash ++ K)))
      ⟨fs, ⟨[⟨K, ct, acc⟩]⟩⟩ = (true, ⟨fs, ⟨[]⟩⟩) ∧
    deleteAsset category true blobDel (some (blobHost ++ (sSlash ++ K))) ⟨fs, ⟨[]⟩⟩ =
      (false, ⟨fs, ⟨[]⟩⟩) := by
  have hm : matchAfterCom (blobHost ++ (sSlash ++ K)) = some K := by
    simp [matchAfterCom_bhost, hne]
  constructor
  · rw [deleteAsset_remote_url category blobDel _ K _ (bhost_http _) hm]
    simp [blobDel, hnb, keyMem, keyRemove]
  · rw [deleteAsset_remote_url category blobDel _ K _ (bhost_http _) hm]
    have hd1 : blobDel K (⟨[]⟩ : BlobState) = none := by simp [blobDel, hnb, keyMem]
    have hd2 : blobDel (blobHost ++ (sSlash ++ K)) (⟨[]⟩ : BlobState) = none := by
      simp [blobDel, bhost_self, bhost_drop, keyMem]
    rw [hd1, hd2]

theorem roundtrip_profile_remote (f : MulterFile) (orig uid uuid : JStr)
    (h : f.originalname = some orig) :
    roundTrip (saveProfileImage true (some f) uid uuid true)
      (deleteProfileImage true blobDel) = some (true, false) := by
  have hsave : saveProfileImage true (some f) uid uuid true st0 =
      .ok (blobHost ++ (sSlash ++ (sProfImgSlash ++ uid ++ sSlash ++ (uuid ++ extname orig))),
        ⟨⟨[], []⟩,
          ⟨[⟨sProfImgSlash ++ uid ++ sSlash ++ (uuid ++ extname orig), f.mimetype, sPublic⟩]⟩⟩) := by
    simp [saveProfileImage, h, st0, blobPut]
  have hdd := double_delete_remote sProfImg
      (sProfImgSlash ++ uid ++ sSlash ++ (uuid ++ extname orig)) f.mimetype sPublic
      ⟨[], []⟩ (prof_nonempty _) (prof_not_bhost _)
  simp only [roundTrip, hsave, deleteProfileImage]
  rw [hdd.1, hdd.2]

theorem roundtrip_property_local (f : MulterFile) (orig pid mt uuid : JStr)
    (h : f.originalname = some orig) :
    roundTrip (savePropertyImage false (some f) pid mt uuid true)
      (deletePropertyImage false blobDel) = some (true, false) := by
  obtain ⟨E, hE⟩ : ∃ E, (if orig = ([] : JStr) then (if mt = sReel then sMp4 else sJpg)
      else extname orig) = E := ⟨_, rfl⟩
  have hsave : savePropertyImage false (some f) pid mt uuid true st0 =
      .ok (sPropImgSlash ++ pid ++ sSlash ++ (uuid ++ E),
        ⟨⟨[jn (jn (jn (jn processCwd sUploads) sPropImg) pid) (uuid ++ E)],
          [jn (jn (jn processCwd sUploads) sPropImg) pid]⟩, ⟨[]⟩⟩) := by
    simp [savePropertyImage, h, st0, existsDir, memJ, mkdirp, writeFileAt, hE]
  have hdd := double_delete_local sPropImg (sPropImgSlash ++ (pid ++ (sSlash ++ (uuid ++ E))))
      [jn (jn (jn processCwd sUploads) sPropImg) pid]
      (prop_nonempty _) (prop_not_http _) (prop_not_slash _) (prop_not_uploads _) (prop_cat _)
  have hpe := property_path_eq pid (uuid ++ E)
  simp only [roundTrip, hsave, deletePropertyImage]
  rw [← hpe]
  simp only [List.append_assoc]
  rw [hdd.1, hdd.2]

theorem roundtrip_property_remote (f : MulterFile) (orig pid mt uuid : JStr)
    (h : f.originalname = some orig) :
    roundTrip (savePropertyImage true (some f) pid mt uuid true)
      (deletePropertyImage true blobDel) = some (true, false) := by
  have hsave : savePropertyImage true (some f) pid mt uuid true st0 =
      .ok (blobHost ++ (sSlash ++ (sPropImgSlash ++ pid ++ sSlash ++ (uuid ++ extname orig))),
        ⟨⟨[], []⟩,
          ⟨[⟨sPropImgSlash ++ pid ++ sSlash ++ (uuid ++ extname orig), f.mimetype, sPublic⟩]⟩⟩) := by
    simp [savePropertyImage, h, st0, blobPut]
  have hdd := double_delete_remote sPropImg
      (sPropImgSlash ++ pid ++ sSlash ++ (uuid ++ extname orig)) f.mimetype sPublic
      ⟨[], []⟩ (prop_nonempty _) (prop_not_bhost _)
  simp only [roundTrip, hsave, deletePropertyImage]
  rw [hdd.1, hdd.2]

theorem roundtrip_insta_local (f : MulterFile) (orig uid mt ft uuid : JStr)
    (h : f.originalname = some orig) :
    roundTrip (saveInstagramMedia false (some f) uid mt ft uuid true)
      (deleteInstagramMedia false blobDel) = some (true, false) := by
  obtain ⟨E, hE⟩ : ∃ E, (if orig = ([] : JStr) then (if ft = sVideo then sMp4 else sJpg)
      else if extname orig = ([] : JStr) then (if ft = sVideo then sMp4 else sJpg)
      else extname orig) = E := ⟨_, rfl⟩
  have hsave : saveInstagramMedia false (some f) uid mt ft uuid true st0 =
      .ok (sInstaSlash ++ mt ++ sSlash ++ uid ++ sSlash ++ (uuid ++ E),
        ⟨⟨[jn (jn (jn (jn (jn processCwd sUploads) sInsta) mt) uid) (uuid ++ E)],
          [jn (jn (jn (jn processCwd sUploads) sInsta) mt) uid]⟩, ⟨[]⟩⟩) := by
    simp [saveInstagramMedia, h, st0, existsDir, memJ, mkdirp, writeFileAt, hE]
  have hdd := double_delete_local sInsta
      (sInstaSlash ++ (mt ++ (sSlash ++ (uid ++ (sSlash ++ (uuid ++ E))))))
      [jn (jn (jn (jn processCwd sUploads) sInsta) mt) uid]
      (insta_nonempty _) (insta_not_http _) (insta_not_slash _) (insta_not_uploads _)
      (insta_cat _)
  have hpe := insta_path_eq mt uid (uuid ++ E)
  simp only [roundTrip, hsave, deleteInstagramMedia]
  rw [← hpe]
  simp only [List.append_assoc]
  rw [hdd.1, hdd.2]

theorem roundtrip_insta_remote (f : MulterFile) (orig uid mt ft uuid : JStr)
    (h : f.originalname = some orig) :
    roundTrip (saveInstagramMedia true (some f) uid mt ft uuid true)
      (deleteInstagramMedia true blobDel) = some (true, false) := by
  have hsave : saveInstagramMedia true (some f) uid mt ft uuid true st0 =
      .ok (blobHost ++
          (sSlash ++ (sInstaSlash ++ mt ++ sSlash ++ uid ++ sSlash ++ (uuid ++ extname orig))),
        ⟨⟨[], []⟩,
          ⟨[⟨sInstaSlash ++ mt ++ sSlash ++ uid ++ sSlash ++ (uuid ++ extname orig),
            f.mimetype, sPublic⟩]⟩⟩) := by
    simp [saveInstagramMedia, h, st0, blobPut]
  have hdd := double_delete_remote sInsta
      (sInstaSlash ++ mt ++ sSlash ++ uid ++ sSlash ++ (uuid ++ extname orig)) f.mimetype sPublic
      ⟨[], []⟩ (insta_nonempty _) (insta_not_bhost _)
  simp only [roundTrip, hsave, deleteInstagramMedia]
  rw [hdd.1, hdd.2]

theorem existsDir_ensure_self (d : JStr) (fs : LocalFS) :
    existsDir d (ensureDirectoryExists d fs) = true := by
  by_cases h : memJ d fs.dirs = true
  · simp [ensureDirectoryExists, existsDir, h]
  · simp [ensureDirectoryExists, existsDir, h, mkdirp, memJ]

theorem existsDir_ensure_keep (d e : JStr) (fs : LocalFS) (h : existsDir d fs = true) :
    existsDir d (ensureDirectoryExists e fs) = true := by
  have h2 : memJ d fs.dirs = true := h
  by_cases he : memJ e fs.dirs = true
  · simp [ensureDirectoryExists, existsDir, he, h2]
  · by_cases hde : d = e
    · subst hde
      simp [ensureDirectoryExists, existsDir, he, mkdirp, memJ]
    · simp [ensureDirectoryExists, existsDir, he, mkdirp, memJ, hde, h2]

theorem ensure_noop (d : JStr) (fs : LocalFS) (h : existsDir d fs = true) :
    ensureDirectoryExists d fs = fs := by
  have h2 : memJ d fs.dirs = true := h
  simp [ensureDirectoryExists, existsDir, h2]

/-- C1: For every asset category (profile image, property image, Instagram
media) on both backends, a successful save from the pristine store followed by
the matching delete on exactly the returned reference yields `true`, and a
second delete of the same reference (after the first succeeded) yields
`false`. -/
theorem c1_save_then_delete_roundtrip (f : MulterFile) (orig uid pid mt ft uuid : JStr)
    (h : f.originalname = some orig) :
    roundTrip (saveProfileImage false (some f) uid uuid true)
      (deleteProfileImage false blobDel) = some (true, false) ∧
    roundTrip (saveProfileImage true (some f) uid uuid true)
      (deleteProfileImage true blobDel) = some (true, false) ∧
    roundTrip (savePropertyImage false (some f) pid mt uuid true)
      (deletePropertyImage false blobDel) = some (true, false) ∧
    roundTrip (savePropertyImage true (some f) pid mt uuid true)
      (deletePropertyImage true blobDel) = some (true, false) ∧
    roundTrip (saveInstagramMedia false (some f) uid mt ft uuid true)
      (deleteInstagramMedia false blobDel) = some (true, false) ∧
    roundTrip (saveInstagramMedia true (some f) uid mt ft uuid true)
      (deleteInstagramMedia true blobDel) = some (true, false) :=
  ⟨roundtrip_profile_local f orig uid uuid h, roundtrip_profile_remote f orig uid uuid h,
    roundtrip_property_local f orig pid mt uuid h, roundtrip_property_remote f orig pid mt uuid h,
    roundtrip_insta_local f orig uid mt ft uuid h, roundtrip_insta_remote f orig uid mt ft uuid h⟩

/-- C1 witness: the round trip at a concrete file, owner and identifier. -/
theorem c1_witness :
    roundTrip (saveProfileImage false (some fileA) uA uuidA true)
      (deleteProfileImage false blobDel) = some (true, false) :=
  (c1_save_then_delete_roundtrip fileA nameAJpg uA pidA sPost sVideo uuidA rfl).1

/-- C2 counterexample: a present file object whose buffer has length zero is
saved successfully by the profile save (returning a stored reference), not
rejected with `NoFileProvided` as the claim states. -/
theorem c2_counterexample :
    (saveProfileImage false (some fileEmptyBuf) uA uuidA true st0).isOk = true := by
  decide

/-- C2 (amended): each save fails with `NoFileProvided` exactly when the file
object itself is absent; the buffer is never inspected, so a present file
object with a zero-length buffer is saved normally on both backends. -/
theorem c2_amended_no_file_check :
    (∀ (isV : Bool) (uid uuid : JStr) (ok : Bool) (st : Store),
      saveProfileImage isV none uid uuid ok st = .error .noFileProvided) ∧
    (∀ (isV : Bool) (pid mt uuid : JStr) (ok : Bool) (st : Store),
      savePropertyImage isV none pid mt uuid ok st = .error .noFileProvided) ∧
    (∀ (isV : Bool) (uid mt ft uuid : JStr) (ok : Bool) (st : Store),
      saveInstagramMedia isV none uid mt ft uuid ok st = .error .noFileProvided) ∧
    (saveProfileImage false (some fileEmptyBuf) uA uuidA true st0).isOk = true ∧
    (saveProfileImage true (some fileEmptyBuf) uA uuidA true st0).isOk = true ∧
    (savePropertyImage false (some fileEmptyBuf) pidA sPost uuidA true st0).isOk = true ∧
    (savePropertyImage true (some fileEmptyBuf) pidA sPost uuidA true st0).isOk = true ∧
    (saveInstagramMedia false (some fileEmptyBuf) uA sPost sImage uuidA true st0).isOk = true ∧
    (saveInstagramMedia true (some fileEmptyBuf) uA sPost sImage uuidA true st0).isOk = true := by
  refine ⟨fun _ _ _ _ _ => rfl, fun _ _ _ _ _ _ => rfl, fun _ _ _ _ _ _ _ => rfl,
    ?_, ?_, ?_, ?_, ?_, ?_⟩ <;> decide

/-- C3 counterexample: for input `property-images/u/x.jpg` with the file
present only at the literal original-input path `/app/property-images/u/x.jpg`,
the implementation returns `false` — its fallback candidates are built from
the already-normalized path — while the candidate list as the claim states it
(built from the original input) would find and delete the file. -/
theorem c3_counterexample :
    (deletePropertyImage false blobDel (some r3) st3).1 = false ∧
    (deleteLocalClaimed sPropImg r3 st3).1 = true := by
  decide

/-- C3 (amended): on the local backend, Delete normalizes exactly as claimed —
URL reduced to its path component, one leading slash stripped, storage root
prefixed with the category inferred — but the fallback candidates are computed
from the NORMALIZED path, not the original input: it probes, in order, the
normalized path, the root-qualified normalized path, the normalized path a
second time, and root + category + basename of the normalized path, deletes
the first that exists, and returns false (not an error) when none exists; an
unparsable URL input also yields false. -/
theorem c3_amended_candidate_scan (category : JStr)
    (delOp : JStr → BlobState → Option BlobState) (r u p : JStr) (st : Store) :
    (r.isEmpty = false → startsWithJ r sHttp = false →
      deleteAsset category false delOp (some r) st =
        scanDelete (candidatePaths category (normalizeSteps category r)) st) ∧
    (startsWithJ u sHttp = true → urlPathname u = some p →
      deleteAsset category false delOp (some u) st =
        scanDelete (candidatePaths category (normalizeSteps category p)) st) ∧
    (startsWithJ u sHttp = true → urlPathname u = none →
      deleteAsset category false delOp (some u) st = (false, st)) :=
  ⟨deleteAsset_local_scan category delOp r st,
    deleteAsset_local_url category delOp u p st,
    deleteAsset_local_urlfail category delOp u st⟩

/-- C3 witness: the candidate-scan characterization evaluated at the
counterexample input. -/
theorem c3_witness :
    deleteAsset sPropImg false blobDel (some r3) st3 =
      scanDelete (candidatePaths sPropImg (normalizeSteps sPropImg r3)) st3 :=
  (c3_amended_candidate_scan sPropImg blobDel r3 r3 r3 st3).1 (by decide) (by decide)

/-- C4: on the remote backend, a reference that is a full URL of the blob host
has the host part stripped (the capture after the first `.com/`) to recover
the bare key, which is tried first; if that attempt fails the original URL is
retried unmodified; if both attempts fail — for any backend behaviour
`delOp`, covering not-found and transport failures alike — the result is
`false` with the store unchanged, and the remote branch never raises. -/
theorem c4_remote_url_two_attempts (category : JStr)
    (delOp : JStr → BlobState → Option BlobState) (u k : JStr) (st : Store)
    (hu : startsWithJ u sHttp = true) (hm : matchAfterCom u = some k) :
    deleteAsset category true delOp (some u) st =
      (match delOp k st.blob with
       | some b => (true, { st with blob := b })
       | none =>
         match delOp u st.blob with
         | some b => (true, { st with blob := b })
         | none => (false, st)) ∧
    (deleteAssetCore category true delOp u st).isOk = true :=
  ⟨deleteAsset_remote_url category delOp u k st hu hm,
    deleteAssetCore_remote_isOk category delOp u st⟩

/-- C4 witness: deleting a concrete blob URL whose key is present. -/
theorem c4_witness :
    deletePropertyImage true blobDel (some u4) st4 =
      (match blobDel k4 st4.blob with
       | some b => (true, { st4 with blob := b })
       | none =>
         match blobDel u4 st4.blob with
         | some b => (true, { st4 with blob := b })
         | none => (false, st4)) :=
  (c4_remote_url_two_attempts sPropImg blobDel u4 k4 st4 rfl rfl).1

/-- C5 counterexample: on the remote backend, saving an Instagram video whose
filename has no extension yields a stored reference that does NOT end in
`.mp4` (the raw empty extension is used; the category default exists only in
the local branch), refuting the claim's "on both backends". -/
theorem c5_counterexample :
    (match saveInstagramMedia true (some fileClip) uA sPost sVideo uuidA true st0 with
     | .ok x => endsWith x.1 sMp4
     | .error _ => true) = false := by
  decide

/-- C5 (amended): the extension is taken from the original filename when
extractable; a category-appropriate default (`.mp4` for media kind video,
`.jpg` otherwise) is substituted only by the Instagram-media save on the
LOCAL backend (and by the property save only when the filename is absent
entirely, keyed on `reel`); the remote saves always use the raw extension, so
a no-extension video filename yields a remote reference with no extension. -/
theorem c5_amended_extension_defaults (uid mt pid uuid : JStr) (st : Store) :
    ((saveInstagramMedia false (some fileClip) uid mt sVideo uuid true st).map Prod.fst =
      .ok (sInstaSlash ++ mt ++ sSlash ++ uid ++ sSlash ++ (uuid ++ sMp4))) ∧
    ((saveInstagramMedia false (some fileClip) uid mt sImage uuid true st).map Prod.fst =
      .ok (sInstaSlash ++ mt ++ sSlash ++ uid ++ sSlash ++ (uuid ++ sJpg))) ∧
    ((saveInstagramMedia false (some fileA) uid mt sVideo uuid true st).map Prod.fst =
      .ok (sInstaSlash ++ mt ++ sSlash ++ uid ++ sSlash ++ (uuid ++ sJpg))) ∧
    ((saveInstagramMedia true (some fileClip) uid mt sVideo uuid true st).map Prod.fst =
      .ok (blobHost ++ (sSlash ++ (sInstaSlash ++ mt ++ sSlash ++ uid ++ sSlash ++ uuid)))) ∧
    ((savePropertyImage false (some fileNoName) pid sReel uuid true st).map Prod.fst =
      .ok (sPropImgSlash ++ pid ++ sSlash ++ (uuid ++ sMp4))) ∧
    ((savePropertyImage false (some fileClip) pid sReel uuid true st).map Prod.fst =
      .ok (sPropImgSlash ++ pid ++ sSlash ++ uuid)) ∧
    endsWith (sInstaSlash ++ mt ++ sSlash ++ uid ++ sSlash ++ (uuid ++ sMp4)) sMp4 = true := by
  have hclip : extname nameClip = [] := rfl
  have hajpg : extname nameAJpg = sJpg := rfl
  refine ⟨?_, ?_, ?_, ?_, ?_, ?_, ?_⟩
  · simp [saveInstagramMedia, fileClip, hclip, Except.map]
    try decide
  · simp [saveInstagramMedia, fileClip, hclip, Except.map]
    try decide
  · simp [saveInstagramMedia, fileA, hajpg, Except.map]
    try decide
  · simp [saveInstagramMedia, fileClip, hclip, blobPut, Except.map]
    try decide
  · simp [savePropertyImage, fileNoName, Except.map]
    try decide
  · simp [savePropertyImage, fileClip, hclip, Except.map]
    try decide
  · have he : sInstaSlash ++ mt ++ sSlash ++ uid ++ sSlash ++ (uuid ++ sMp4) =
        (sInstaSlash ++ mt ++ sSlash ++ uid ++ sSlash ++ uuid) ++ sMp4 := by
      simp [List.append_assoc]
    rw [he]
    exact endsWith_append _ _

/-- C6: Delete never propagates an exception — whenever the body of a delete
operation raises (URL-parse error, filesystem or blob backend failure), the
operation returns `false` with the store unchanged — whereas a save whose
backend write or upload fails propagates the failure to the caller
(`WriteFailed` locally, `UploadFailed` remotely). -/
theorem c6_delete_swallows_save_propagates :
    (∀ (category : JStr) (isV : Bool) (delOp : JStr → BlobState → Option BlobState)
        (r : JStr) (st : Store) (e : JsErr),
      deleteAssetCore category isV delOp r st = .error e →
      deleteAsset category isV delOp (some r) st = (false, st)) ∧
    (∀ (uid uuid : JStr) (st : Store),
      saveProfileImage true (some fileA) uid uuid false st = .error .uploadFailed) ∧
    (∀ (uid uuid : JStr) (st : Store),
      saveProfileImage false (some fileA) uid uuid false st = .error .writeFailed) ∧
    (∀ (pid mt uuid : JStr) (st : Store),
      savePropertyImage true (some fileA) pid mt uuid false st = .error .uploadFailed) ∧
    (∀ (pid mt uuid : JStr) (st : Store),
      savePropertyImage false (some fileA) pid mt uuid false st = .error .writeFailed) ∧
    (∀ (uid mt ft uuid : JStr) (st : Store),
      saveInstagramMedia true (some fileA) uid mt ft uuid false st = .error .uploadFailed) ∧
    (∀ (uid mt ft uuid : JStr) (st : Store),
      saveInstagramMedia false (some fileA) uid mt ft uuid false st = .error .writeFailed) :=
  ⟨deleteAsset_error_fold, fun _ _ _ => rfl, fun _ _ _ => rfl, fun _ _ _ _ => rfl,
    fun _ _ _ _ => rfl, fun _ _ _ _ _ => rfl, fun _ _ _ _ _ => rfl⟩

/-- C6 witness: an input on which the local branch's URL parse throws is
folded into `false` with the store unchanged. -/
theorem c6_witness :
    deleteAsset sPropImg false blobDel (some badUrl) st0 = (false, st0) :=
  c6_delete_swallows_save_propagates.1 sPropImg false blobDel badUrl st0 .typeError rfl

/-- C7: every delete operation, on both backends and for any blob backend
behaviour, returns `false` immediately on a `null` or empty-string reference,
with the store unchanged (no filesystem or blob side effect) and no error. -/
theorem c7_empty_null_delete :
    ∀ (isV : Bool) (delOp : JStr → BlobState → Option BlobState) (st : Store),
      deleteProfileImage isV delOp none st = (false, st) ∧
      deleteProfileImage isV delOp (some []) st = (false, st) ∧
      deletePropertyImage isV delOp none st = (false, st) ∧
      deletePropertyImage isV delOp (some []) st = (false, st) ∧
      deleteInstagramMedia isV delOp none st = (false, st) ∧
      deleteInstagramMedia isV delOp (some []) st = (false, st) :=
  fun _ _ _ => ⟨rfl, rfl, rfl, rfl, rfl, rfl⟩

/-- C8: a successful save returns, on the local backend, exactly the
category-relative key `{category}/[{sub_kind}/]{owner}/{uuid}{ext}` with no
`uploads/` root prefix; on the remote backend it uploads an object under that
same key with public access and the file's declared content type, and returns
the backend URL of that key. -/
theorem c8_key_layout (f : MulterFile) (orig uid pid mt ft uuid : JStr) (st : Store)
    (h : f.originalname = some orig) :
    (∃ st2, saveProfileImage false (some f) uid uuid true st =
        .ok (sProfImgSlash ++ uid ++ sSlash ++ (uuid ++ extname orig), st2)) ∧
    startsWithJ (sProfImgSlash ++ uid ++ sSlash ++ (uuid ++ extname orig)) sUploadsSlash
      = false ∧
    (∃ st2, saveProfileImage true (some f) uid uuid true st =
        .ok (blobHost ++ (sSlash ++ (sProfImgSlash ++ uid ++ sSlash ++ (uuid ++ extname orig))),
          st2) ∧
      st2.blob.objects =
        ⟨sProfImgSlash ++ uid ++ sSlash ++ (uuid ++ extname orig), f.mimetype, sPublic⟩ ::
          st.blob.objects) ∧
    (∃ ext st2, savePropertyImage false (some f) pid mt uuid true st =
        .ok (sPropImgSlash ++ pid ++ sSlash ++ (uuid ++ ext), st2) ∧
      startsWithJ (sPropImgSlash ++ pid ++ sSlash ++ (uuid ++ ext)) sUploadsSlash = false) ∧
    (∃ st2, savePropertyImage true (some f) pid mt uuid true st =
        .ok (blobHost ++ (sSlash ++ (sPropImgSlash ++ pid ++ sSlash ++ (uuid ++ extname orig))),
          st2) ∧
      st2.blob.objects =
        ⟨sPropImgSlash ++ pid ++ sSlash ++ (uuid ++ extname orig), f.mimetype, sPublic⟩ ::
          st.blob.objects) ∧
    (∃ ext st2, saveInstagramMedia false (some f) uid mt ft uuid true st =
        .ok (sInstaSlash ++ mt ++ sSlash ++ uid ++ sSlash ++ (uuid ++ ext), st2) ∧
      startsWithJ (sInstaSlash ++ mt ++ sSlash ++ uid ++ sSlash ++ (uuid ++ ext))
        sUploadsSlash = false) ∧
    (∃ st2, saveInstagramMedia true (some f) uid mt ft uuid true st =
        .ok (blobHost ++
          (sSlash ++ (sInstaSlash ++ mt ++ sSlash ++ uid ++ sSlash ++ (uuid ++ extname orig))),
          st2) ∧
      st2.blob.objects =
        ⟨sInstaSlash ++ mt ++ sSlash ++ uid ++ sSlash ++ (uuid ++ extname orig),
          f.mimetype, sPublic⟩ :: st.blob.objects) := by
  obtain ⟨fb, fm, fo, rfl⟩ : ∃ b m o, f = ⟨b, m, o⟩ := ⟨f.buffer, f.mimetype, f.originalname, rfl⟩
  obtain rfl : fo = some orig := h
  refine ⟨?_, ?_, ?_, ?_, ?_, ?_, ?_⟩
  · exact ⟨_, rfl⟩
  · exact prof_not_uploads _
  · exact ⟨_, rfl, rfl⟩
  · exact ⟨_, _, rfl, prop_not_uploads _⟩
  · exact ⟨_, rfl, rfl⟩
  · exact ⟨_, _, rfl, insta_not_uploads _⟩
  · exact ⟨_, rfl, rfl⟩

/-- C8 witness: the local profile save at concrete inputs returns the bare
category-relative key. -/
theorem c8_witness :
    ∃ st2, saveProfileImage false (some fileA) uA uuidA true st0 =
      .ok (sProfImgSlash ++ uA ++ sSlash ++ (uuidA ++ extname nameAJpg), st2) :=
  (c8_key_layout fileA nameAJpg uA pidA sPost sVideo uuidA st0 rfl).1

/-- C9: at construction time the managed-hosting flag leaves the local
filesystem untouched (no directory is ever created); otherwise the root
upload directory and the property/profile category directories are created
eagerly, the whole setup is idempotent, and a directory that already exists
is left as-is without error. -/
theorem c9_constructor_dirs :
    (∀ fs : LocalFS, constructorInit true fs = fs) ∧
    (∀ fs : LocalFS,
      existsDir uploadDir (constructorInit false fs) = true ∧
      existsDir propertyImagesDir (constructorInit false fs) = true ∧
      existsDir profileImagesDir (constructorInit false fs) = true) ∧
    (∀ fs : LocalFS,
      constructorInit false (constructorInit false fs) = constructorInit false fs) ∧
    (∀ (d : JStr) (fs : LocalFS), existsDir d fs = true → ensureDirectoryExists d fs = fs) := by
  have hmem : ∀ fs : LocalFS,
      existsDir uploadDir (constructorInit false fs) = true ∧
      existsDir propertyImagesDir (constructorInit false fs) = true ∧
      existsDir profileImagesDir (constructorInit false fs) = true := by
    intro fs
    refine ⟨?_, ?_, ?_⟩
    · show existsDir uploadDir (ensureDirectoryExists profileImagesDir
        (ensureDirectoryExists propertyImagesDir (ensureDirectoryExists uploadDir fs))) = true
      exact existsDir_ensure_keep _ _ _ (existsDir_ensure_keep _ _ _ (existsDir_ensure_self _ _))
    · show existsDir propertyImagesDir (ensureDirectoryExists profileImagesDir
        (ensureDirectoryExists propertyImagesDir (ensureDirectoryExists uploadDir fs))) = true
      exact existsDir_ensure_keep _ _ _ (existsDir_ensure_self _ _)
    · show existsDir profileImagesDir (ensureDirectoryExists profileImagesDir
        (ensureDirectoryExists propertyImagesDir (ensureDirectoryExists uploadDir fs))) = true
      exact existsDir_ensure_self _ _
  refine ⟨fun _ => rfl, hmem, ?_, fun d fs h => ensure_noop d fs h⟩
  intro fs
  show ensureDirectoryExists profileImagesDir (ensureDirectoryExists propertyImagesDir
    (ensureDirectoryExists uploadDir (constructorInit false fs))) = constructorInit false fs
  rw [ensure_noop uploadDir _ (hmem fs).1, ensure_noop propertyImagesDir _ (hmem fs).2.1,
    ensure_noop profileImagesDir _ (hmem fs).2.2]

/-- C9 witness: when all three directories already exist, the create-if-absent
step leaves the filesystem unchanged. -/
theorem c9_witness : ensureDirectoryExists uploadDir fsW = fsW :=
  c9_constructor_dirs.2.2.2 uploadDir fsW (by decide)

/-- C10: on the remote backend, a non-empty reference that does not start with
`http` has at most one leading slash stripped, and exactly one deletion
attempt is made with the result: the outcome is fully determined by that one
`delOp` call — success deletes and returns true; any failure yields `(false,
unchanged store)` with no alternative key or URL shape tried and no error
raised. -/
theorem c10_remote_bare_key_single_attempt (category : JStr)
    (delOp : JStr → BlobState → Option BlobState) (r : JStr) (st : Store)
    (h0 : r.isEmpty = false) (hh : startsWithJ r sHttp = false) :
    deleteAsset category true delOp (some r) st =
      (match delOp (if startsWithJ r sSlash then r.drop 1 else r) st.blob with
       | some b => (true, { st with blob := b })
       | none => (false, st)) :=
  deleteAsset_remote_key category delOp r st h0 hh

/-- C10 witness: deleting a slash-prefixed bare key present in the store. -/
theorem c10_witness :
    deletePropertyImage true blobDel (some r10) st4 =
      (match blobDel (if startsWithJ r10 sSlash then r10.drop 1 else r10) st4.blob with
       | some b => (true, { st4 with blob := b })
       | none => (false, st4)) :=
  c10_remote_bare_key_single_attempt sPropImg blobDel r10 st4 rfl rfl
